import Mathlib

/-!
Verification of the retrieval-and-synthesis pipeline of the `hukuk_rag_mvp`
repository.  The definitions below are shallow embeddings of the Python code in
`src/database/chroma_manager.py`, `src/processing/document_processor.py` and
`src/retrieval/rag_pipeline.py`.  Python floats are modelled as rationals,
Python strings as `String` (or as `List Char` where index arithmetic matters),
and the document-splitting `while` loop of `DocumentProcessor._split_into_chunks`
is modelled with explicit fuel, so that non-termination of the Python loop shows
up as the fueled model returning `none` for every fuel value.  The remote LLM
backend is a parameter `backend : String → String → Except Unit String`
(model id and prompt in, generated text or a failure out), and the generation
functions additionally return the list of `(model, prompt)` calls they issue so
that invocation counts are provable.
-/

/-- Model of Python `round(x, 2)` on the rational model of a float: scale by
100, round to the nearest integer, and scale back. -/
def round2 (q : ℚ) : ℚ := (round (q * 100) : ℤ) / 100

/-- Python slice-index adjustment: a negative index counts from the end of the
string (clamped below at 0), a non-negative index is clamped above at the
length.  This is the interpretation CPython applies to the `start`/`end`
arguments of both slicing and `str.rfind`. -/
def pyAdj (len : Nat) (i : Int) : Nat :=
  if i < 0 then (i + len).toNat else min i.toNat len

/-- Python `s[a:b]` on a string modelled as a list of characters. -/
def pySlice (s : List Char) (a b : Int) : List Char :=
  (s.take (pyAdj s.length b)).drop (pyAdj s.length a)

/-- Python `s[a:]`. -/
def pySliceFrom (s : List Char) (a : Int) : List Char :=
  s.drop (pyAdj s.length a)

/-- Python `s.rfind(c, a, b)` for a single-character needle: the largest index
`i` with `a' ≤ i < b'` (slice-adjusted bounds) such that `s[i] = c`, or `-1`
when no such index exists. -/
def pyRfindChar (s : List Char) (c : Char) (a b : Int) : Int :=
  let lo := pyAdj s.length a
  let hi := pyAdj s.length b
  (List.range s.length).foldl
    (fun acc i => if lo ≤ i ∧ i < hi ∧ s.getD i (Char.ofNat 0) = c then (i : Int) else acc)
    (-1)

/-- The ASCII whitespace characters recognised by Python `str.strip()` (the
inputs in this development are ASCII, so the unicode cases are not needed). -/
def isPySpace (c : Char) : Bool :=
  c = ' ' ∨ c = '\t' ∨ c = '\n' ∨ c = '\r' ∨ c = '\x0b' ∨ c = '\x0c'

/-- Python `s.strip()`: drop leading and trailing whitespace. -/
def pyStrip (s : List Char) : List Char :=
  ((s.dropWhile isPySpace).reverse.dropWhile isPySpace).reverse

/-- The `while start < len(text)` loop of `DocumentProcessor._split_into_chunks`
(document_processor.py lines 226-246), with explicit fuel.  One iteration:
`end = start + chunk_size`; if `end >= len(text)` the chunk is `text[start:]`,
otherwise `last_space = text.rfind(' ', start, end)` pulls `end` back to
`last_space` when `last_space > start` and the chunk is `text[start:end]`; the
stripped chunk is appended, `start` becomes `end - overlap`, and the loop stops
when the new `start` is `≥ len(text)`.  Fuel exhaustion returns `none`; a
Python-level infinite loop is exactly `none` for every fuel. -/
def splitChunksLoop (text : List Char) (cs ov : Int) :
    Nat → Int → List (List Char) → Option (List (List Char))
  | 0, _, _ => none
  | fuel + 1, start, chunks =>
    if start < (text.length : Int) then
      let e := start + cs
      let p :=
        if (text.length : Int) ≤ e then (e, pySliceFrom text start)
        else
          let ls := pyRfindChar text ' ' start e
          if start < ls then (ls, pySlice text start ls) else (e, pySlice text start e)
      let chunks' := chunks ++ [pyStrip p.2]
      let start' := p.1 - ov
      if (text.length : Int) ≤ start' then some chunks'
      else splitChunksLoop text cs ov fuel start' chunks'
    else some chunks

/-- `DocumentProcessor._split_into_chunks` (document_processor.py lines
219-250): a text no longer than `chunk_size` is returned whole; otherwise the
loop above runs from `start = 0` and chunks that are empty after stripping are
filtered out of the result. -/
def splitIntoChunks (text : List Char) (cs ov : Int) (fuel : Nat) :
    Option (List (List Char)) :=
  if (text.length : Int) ≤ cs then some [text]
  else (splitChunksLoop text cs ov fuel 0 []).map
    (List.filter (fun ch => !(pyStrip ch).isEmpty))

/-- `DocumentProcessor.__init__` (document_processor.py lines 21-28) reads
`chunk_size` and `chunk_overlap` from the configuration and stores them.  It
performs no validation whatsoever — there is no check that
`chunk_overlap < chunk_size` or that `chunk_size > 0`, and no configuration
exception type exists anywhere in the repository — so the model accepts every
pair of values. -/
def documentProcessorInit (chunkSize chunkOverlap : Int) : Except String (Int × Int) :=
  Except.ok (chunkSize, chunkOverlap)

/-- The distance-to-similarity normalization of `ChromaManager.search`
(chroma_manager.py line 170): `similarity = max(0, 1.0 - (distance / 20.0))`. -/
def normalizeSimilarity (distance : ℚ) : ℚ := max 0 (1 - distance / 20)

/-- A record passed to `ChromaManager.add_documents`: only the `content` field
influences the return value (the remaining metadata fields are packaged into
the stored metadata and do not affect control flow), so the model keeps
`content` together with the `filename` used for metadata. -/
structure PyDoc where
  content : String
  filename : String
deriving DecidableEq, Repr

/-- The texts that `ChromaManager.add_documents` actually stores: the contents
of the input records, skipping records whose `content` is empty (the Python
`if not content: continue`, lines 107-109). -/
def storedContents (documents : List PyDoc) : List String :=
  (documents.map (·.content)).filter (fun s => !s.isEmpty)

/-- `ChromaManager.add_documents` (chroma_manager.py lines 92-148), on the
success path of the embedding and storage backends: returns `False` when the
input list is empty, `False` when no record has non-empty content, and `True`
otherwise.  The Python function returns a boolean, not a count. -/
def addDocuments (documents : List PyDoc) : Bool :=
  if documents.isEmpty then false
  else if (storedContents documents).isEmpty then false
  else true

/-- The integer value of a Python `bool` (`bool` is a subclass of `int` with
`True == 1` and `False == 0`). -/
def pyBoolToInt (b : Bool) : Int := if b then 1 else 0

/-- A retrieval hit as produced by `ChromaManager.search` and consumed by
`RAGPipeline`: the normalized similarity, the chunk content, and the metadata
fields the pipeline reads (`filename` and `chunk_index`). -/
structure Hit where
  similarity : ℚ
  content : List Char
  filename : String
  chunkIndex : Nat
deriving DecidableEq, Repr

/-- A source record as built by `RAGPipeline._format_sources`: filename, the
2-decimal-rounded similarity (the Python code formats it as an `f"{s:.2f}"`
string; the model keeps the rounded rational), chunk index and content
preview. -/
structure SourceRef where
  filename : String
  similarity : ℚ
  chunkIndex : Nat
  preview : List Char
deriving DecidableEq, Repr

/-- The preview built in `RAGPipeline._format_sources` (rag_pipeline.py line
237): `doc['content'][:200] + "..." if len(doc['content']) > 200 else
doc['content']`. -/
def previewOf (content : List Char) : List Char :=
  if 200 < content.length then content.take 200 ++ "...".data else content

/-- The source dictionary built for one surviving hit in
`RAGPipeline._format_sources` (rag_pipeline.py lines 233-239). -/
def mkSourceRef (doc : Hit) : SourceRef :=
  { filename := doc.filename
    similarity := round2 doc.similarity
    chunkIndex := doc.chunkIndex
    preview := previewOf doc.content }

/-- `RAGPipeline._format_sources` (rag_pipeline.py lines 222-241): walk the
hits in order, skip any hit with `similarity < threshold`, and emit a source
record for each remaining hit. -/
def formatSources (threshold : ℚ) : List Hit → List SourceRef
  | [] => []
  | doc :: rest =>
    if doc.similarity < threshold then formatSources threshold rest
    else mkSourceRef doc :: formatSources threshold rest

/-- One labeled context block of `RAGPipeline._prepare_context` (rag_pipeline.py
lines 139-142): `f"[Kaynak {i+1}: {filename}]\n{content.strip()}\n"`. -/
def mkPart (label : Nat) (filename : String) (content : List Char) : String :=
  "[Kaynak " ++ toString label ++ ": " ++ filename ++ "]\n"
    ++ String.mk (pyStrip content) ++ "\n"

/-- The `for i, doc in enumerate(relevant_docs)` loop of
`RAGPipeline._prepare_context` (rag_pipeline.py lines 131-142): `i` advances on
every hit, including hits skipped for being below the threshold, and each
surviving hit contributes a block labeled `i + 1`. -/
def contextPartsAux (threshold : ℚ) : Nat → List Hit → List String
  | _, [] => []
  | i, doc :: rest =>
    if doc.similarity < threshold then contextPartsAux threshold (i + 1) rest
    else mkPart (i + 1) doc.filename doc.content :: contextPartsAux threshold (i + 1) rest

/-- `RAGPipeline._prepare_context` (rag_pipeline.py lines 127-145): the
surviving blocks joined with a newline. -/
def prepareContext (threshold : ℚ) (docs : List Hit) : String :=
  String.intercalate "\n" (contextPartsAux threshold 0 docs)

/-- `RAGPipeline._calculate_confidence` (rag_pipeline.py lines 243-260).
Empty input returns `0.0`; otherwise `best` is the Python `max` over all
similarities (no initial element, unfiltered), `good` counts hits with
similarity at or above the threshold, and the result is
`round(min(min(best, 1.0) + min(good * 0.1, 0.3), 1.0), 2)`. -/
def calculateConfidence (threshold : ℚ) : List Hit → ℚ
  | [] => 0
  | d :: ds =>
    let best := ds.foldl (fun m h => max m h.similarity) d.similarity
    let good := ((d :: ds).filter (fun h => decide (threshold ≤ h.similarity))).length
    round2 (min (min best 1 + min ((good : ℚ) * (1/10)) (3/10)) 1)

/-- The fixed degraded answer of `RAGPipeline._get_llm_response` (rag_pipeline.py
line 220), returned when the primary call and the optional fallback both fail. -/
def degradedMsg : String := "LLM yanıt vermedi. Lütfen daha sonra tekrar deneyin."

/-- `RAGPipeline._get_llm_response` (rag_pipeline.py lines 189-220), with the
remote completion call abstracted as `backend model prompt`.  The primary model
is tried first; on failure, the configured alternative model (if any) is tried
exactly once with the same prompt; if that also fails (or none is configured)
the fixed degraded message is returned.  The second component records every
`(model, prompt)` call issued to the backend, in order.  The function is total:
no failure escapes it. -/
def getLlmResponse (backend : String → String → Except Unit String)
    (model : String) (altModel : Option String) (prompt : String) :
    String × List (String × String) :=
  match backend model prompt with
  | .ok content => (content.trim, [(model, prompt)])
  | .error _ =>
    match altModel with
    | some alt =>
      match backend alt prompt with
      | .ok content => (content.trim, [(model, prompt), (alt, prompt)])
      | .error _ => (degradedMsg, [(model, prompt), (alt, prompt)])
    | none => (degradedMsg, [(model, prompt)])

/-- The fixed "no relevant documents" answer of `RAGPipeline.query`
(rag_pipeline.py line 86). -/
def noDocsMsg : String :=
  "Üzgünüm, sorunuzla ilgili belge bulamadım. Lütfen daha spesifik bir soru sormayı deneyin."

/-- The system instruction of `RAGPipeline._create_prompt` (rag_pipeline.py
lines 150-164). -/
def systemPromptText : String :=
  "Sen uzman bir Türk hukuk asistanısın. Görevin:\n\n1. Verilen hukuki belgelerden yararlanarak kullanıcının sorularını yanıtlamak\n2. Sadece verilen belgeler temelinde cevap vermek\n3. Yanıtlarını net, anlaşılır ve hukuki açıdan doğru şekilde sunmak\n4. Eğer belgeler yetersizse bunu belirtmek\n5. Kaynak referanslarını göstermek\n\nKURALLARIN:\n- Sadece verilen belgelerdeki bilgileri kullan\n- Spekülasyon yapma\n- Belirsizlik durumunda \"Bu konuda verilen belgelerde yeterli bilgi bulunmuyor\" de\n- Türkçe dilbilgisi kurallarına uygun yanıt ver\n- Hukuki terimler kullanırken açıklama yap"

/-- `RAGPipeline._create_prompt` (rag_pipeline.py lines 147-186) in the
`chat_history = None` case (the default of `query`), where `history_context`
is the empty string: the system instruction followed by the user turn holding
the context and the question. -/
def createPrompt (question context : String) : String :=
  systemPromptText ++ "\n\n" ++ "Hukuki belgeler:\n" ++ context ++ "\n\n" ++ ""
    ++ "\nKullanıcı sorusu: " ++ question
    ++ "\n\nLütfen bu soruyu sadece verilen hukuki belgelere dayanarak yanıtla. Kaynak referanslarını da belirt."

/-- The structured result of `RAGPipeline.query`: the fields the claims are
about (`answer`, `sources`, `confidence`; `query`, `timestamp` and
`retrieved_docs_count` are echoes of the inputs and the clock). -/
structure QueryResult where
  answer : String
  sources : List SourceRef
  confidence : ℚ
deriving DecidableEq, Repr

/-- `RAGPipeline.query` (rag_pipeline.py lines 75-125) with the retrieval step
already performed (the result of `chroma_manager.search` is the parameter
`relevantDocs`).  Zero hits short-circuit to the fixed answer with confidence
`0.0` and no sources, before context assembly and before any backend call (the
empty call log).  Otherwise the context, prompt, generation and result
packaging run in order. -/
def ragQuery (backend : String → String → Except Unit String) (model : String)
    (altModel : Option String) (threshold : ℚ) (question : String)
    (relevantDocs : List Hit) : QueryResult × List (String × String) :=
  if relevantDocs.isEmpty then
    ({ answer := noDocsMsg, sources := [], confidence := 0 }, [])
  else
    let context := prepareContext threshold relevantDocs
    let prompt := createPrompt question context
    let r := getLlmResponse backend model altModel prompt
    ({ answer := r.1
       sources := formatSources threshold relevantDocs
       confidence := calculateConfidence threshold relevantDocs }, r.2)

/-- The ten-character text `"ab ccccccc"` on which `_split_into_chunks` with
`chunk_size = 5`, `overlap = 3` loops forever: the only space sits right after
`start`, so the pulled-back window edge minus the overlap moves `start`
backwards. -/
def cycleText : List Char := "ab ccccccc".data

/-- A seven-character text with no spaces, used with `chunk_size = overlap = 5`:
the window edge is never pulled back and `start` never advances. -/
def equalOverlapText : List Char := "aaaaaaa".data

/-- Example hit with similarity 0.9 (the spec example scenario). -/
def hitA : Hit := ⟨9/10, [], "a.txt", 0⟩

/-- Example hit with similarity 0.3 (the spec example scenario). -/
def hitB : Hit := ⟨3/10, [], "b.txt", 0⟩

/-- A below-threshold hit sitting before a surviving hit. -/
def lowHit : Hit := ⟨3/10, ['c'], "low.txt", 0⟩

/-- A surviving hit at position 1 of the retrieved list. -/
def highHit : Hit := ⟨9/10, ['d'], "high.txt", 1⟩

/-- A hit whose chunk content has 201 characters, enough to trigger preview
truncation. -/
def bigHit : Hit := ⟨9/10, List.replicate 201 'a', "big.txt", 0⟩

/-- Two records with non-empty content, for exercising `addDocuments`. -/
def twoDocs : List PyDoc := [⟨"madde 1", "a.txt"⟩, ⟨"madde 2", "b.txt"⟩]

/-- A generation backend that fails on every call. -/
def failingBackend : String → String → Except Unit String := fun _ _ => Except.error ()

/- ------------------------------------------------------------------ -/
/- Helper lemmas                                                      -/
/- ------------------------------------------------------------------ -/

/-- Rounding to two decimals is monotone. -/
theorem round2_mono {a b : ℚ} (h : a ≤ b) : round2 a ≤ round2 b := by
  unfold round2
  have hr : round (a * 100) ≤ round (b * 100) := by
    rw [round_eq, round_eq]
    exact Int.floor_mono (by linarith)
  have hc : ((round (a * 100) : ℤ) : ℚ) ≤ ((round (b * 100) : ℤ) : ℚ) := Int.cast_le.mpr hr
  exact div_le_div_of_nonneg_right hc (by norm_num)

/-- The `_format_sources` loop is the filter of the hits at or above the
threshold, mapped to source records. -/
theorem formatSources_eq (threshold : ℚ) (hits : List Hit) :
    formatSources threshold hits
      = (hits.filter (fun h => decide (threshold ≤ h.similarity))).map mkSourceRef := by
  induction hits with
  | nil => rfl
  | cons d rest ih =>
    by_cases hd : d.similarity < threshold
    · simp [formatSources, hd, List.filter, not_le.mpr hd, ih]
    · simp [formatSources, hd, List.filter, not_lt.mp hd, ih]

/-- The `_prepare_context` loop is the enumeration of the hits from `n`,
filtered at the threshold, each surviving hit labeled with its enumeration
index plus one. -/
theorem contextPartsAux_eq (threshold : ℚ) (n : Nat) (hits : List Hit) :
    contextPartsAux threshold n hits
      = ((hits.enumFrom n).filter (fun p => decide (threshold ≤ p.2.similarity))).map
          (fun p => mkPart (p.1 + 1) p.2.filename p.2.content) := by
  induction hits generalizing n with
  | nil => rfl
  | cons d rest ih =>
    by_cases hd : d.similarity < threshold
    · simp [contextPartsAux, hd, List.enumFrom, List.filter, not_le.mpr hd, ih]
    · simp [contextPartsAux, hd, List.enumFrom, List.filter, not_lt.mp hd, ih]

/-- Python `max` over a non-empty collection: the fold from
`_calculate_confidence` returns any value that is a member (or the seed) and an
upper bound. -/
theorem foldlMax_eq (ds : List Hit) (a b : ℚ) (hab : a ≤ b)
    (hub : ∀ h ∈ ds, h.similarity ≤ b) (hmem : b = a ∨ ∃ h ∈ ds, h.similarity = b) :
    ds.foldl (fun m h => max m h.similarity) a = b := by
  induction ds generalizing a with
  | nil =>
    rcases hmem with h | ⟨h, hh, _⟩
    · simp [h]
    · simp at hh
  | cons d rest ih =>
    have hd : d.similarity ≤ b := hub d (by simp)
    have hmax : max a d.similarity ≤ b := max_le hab hd
    refine ih (max a d.similarity) hmax (fun h hh => hub h (by simp [hh])) ?_
    rcases hmem with h | ⟨h, hh, hsim⟩
    · left
      have h2 : b ≤ a ⊔ d.similarity := by
        rw [h]
        exact le_max_left _ _
      exact le_antisymm h2 hmax
    · rcases List.mem_cons.mp hh with rfl | hrest
      · left
        rw [← hsim]
        exact (max_eq_right (hsim ▸ hab)).symm
      · right
        exact ⟨h, hrest, hsim⟩

/-- A string passes the `if not content: continue` filter exactly when it is
non-empty. -/
theorem bang_isEmpty_iff (s : String) : (!s.isEmpty) = true ↔ s ≠ "" := by
  cases he : s.isEmpty with
  | true =>
    have hs : s = "" := (String.isEmpty_iff s).mp (by rw [he])
    subst hs
    simp [he]
  | false =>
    simp only [Bool.not_false, true_iff]
    intro hs
    have ht : s.isEmpty = true := by
      rw [hs]
      decide
    rw [he] at ht
    cases ht

/-- One iteration of the splitting loop on `cycleText` from `start = 0`:
the window `[0, 5)` is pulled back to the space at index 2, the chunk `"ab"` is
emitted, and `start` becomes `2 - 3 = -1`. -/
theorem cycleText_step_zero (fuel : Nat) (chunks : List (List Char)) :
    splitChunksLoop cycleText 5 3 (fuel + 1) 0 chunks
      = splitChunksLoop cycleText 5 3 fuel (-1) (chunks ++ ["ab".data]) := rfl

/-- One iteration from `start = -1`: Python adjusts `rfind(' ', -1, 4)` to the
empty range `[9, 4)` (no space found) and `text[-1:4]` to the empty slice
`text[9:4]`, so an empty chunk is emitted and `start` becomes `4 - 3 = 1`. -/
theorem cycleText_step_neg_one (fuel : Nat) (chunks : List (List Char)) :
    splitChunksLoop cycleText 5 3 (fuel + 1) (-1) chunks
      = splitChunksLoop cycleText 5 3 fuel 1 (chunks ++ [[]]) := rfl

/-- One iteration from `start = 1`: the window `[1, 6)` is pulled back to the
space at index 2, the chunk `"b"` is emitted, and `start` becomes `2 - 3 = -1`
again — closing the cycle `1 → -1 → 1`. -/
theorem cycleText_step_one (fuel : Nat) (chunks : List (List Char)) :
    splitChunksLoop cycleText 5 3 (fuel + 1) 1 chunks
      = splitChunksLoop cycleText 5 3 fuel (-1) (chunks ++ ["b".data]) := rfl

/-- The splitting loop on `cycleText` never leaves the `-1 ↔ 1` cycle: it
exhausts any amount of fuel from either state. -/
theorem cycleText_loop_none (fuel : Nat) :
    (∀ chunks, splitChunksLoop cycleText 5 3 fuel (-1) chunks = none)
    ∧ (∀ chunks, splitChunksLoop cycleText 5 3 fuel 1 chunks = none) := by
  induction fuel with
  | zero => exact ⟨fun _ => rfl, fun _ => rfl⟩
  | succ n ih =>
    refine ⟨fun chunks => ?_, fun chunks => ?_⟩
    · rw [cycleText_step_neg_one]
      exact ih.2 _
    · rw [cycleText_step_one]
      exact ih.1 _

/-- One iteration of the splitting loop on `equalOverlapText` with
`chunk_size = overlap = 5` from `start = 0`: no space in the window, the chunk
`"aaaaa"` is emitted, and `start` becomes `5 - 5 = 0` again. -/
theorem equalOverlapText_step (fuel : Nat) (chunks : List (List Char)) :
    splitChunksLoop equalOverlapText 5 5 (fuel + 1) 0 chunks
      = splitChunksLoop equalOverlapText 5 5 fuel 0 (chunks ++ ["aaaaa".data]) := rfl

/-- The splitting loop on `equalOverlapText` with `chunk_size = overlap = 5`
never advances past `start = 0`. -/
theorem equalOverlapText_loop_none (fuel : Nat) :
    ∀ chunks, splitChunksLoop equalOverlapText 5 5 fuel 0 chunks = none := by
  induction fuel with
  | zero => exact fun _ => rfl
  | succ n ih =>
    intro chunks
    rw [equalOverlapText_step]
    exact ih _

/- ------------------------------------------------------------------ -/
/- Claim theorems                                                     -/
/- ------------------------------------------------------------------ -/

set_option maxRecDepth 4000

/-- C1.  The confidence score of `_calculate_confidence` is `0` on an empty hit
list; on a non-empty hit list whose maximum (unfiltered) similarity is `b` it
equals `min(b, 1) + min(goodCount * 0.1, 0.3)` clamped to `1` and rounded to
two decimals, where `goodCount` counts the hits with similarity at or above the
threshold; and on hits with similarities `[0.9, 0.3]` at threshold `0.7` it is
exactly `1`. -/
theorem calculateConfidence_spec (threshold b : ℚ) (hits : List Hit)
    (hne : hits ≠ []) (hmem : b ∈ hits.map (·.similarity))
    (hub : ∀ x ∈ hits.map (·.similarity), x ≤ b) :
    calculateConfidence threshold hits
      = round2 (min (min b 1
          + min (((hits.filter (fun h => decide (threshold ≤ h.similarity))).length : ℚ)
              * (1/10)) (3/10)) 1)
    ∧ calculateConfidence threshold [] = 0
    ∧ calculateConfidence (7/10) [hitA, hitB] = 1 := by
  refine ⟨?_, rfl, ?_⟩
  · cases hits with
    | nil => exact absurd rfl hne
    | cons d ds =>
      have hub' : ∀ h ∈ ds, h.similarity ≤ b := fun h hh =>
        hub _ (by simp only [List.map_cons, List.mem_cons]; exact .inr (List.mem_map.mpr ⟨h, hh, rfl⟩))
      have hmem' : b = d.similarity ∨ ∃ h ∈ ds, h.similarity = b := by
        rcases List.mem_map.mp hmem with ⟨h, hh, hsim⟩
        rcases List.mem_cons.mp hh with rfl | hrest
        · left
          exact hsim.symm
        · right
          exact ⟨h, hrest, hsim⟩
      have hab : d.similarity ≤ b := hub _ (by simp)
      have hbest : ds.foldl (fun m h => max m h.similarity) d.similarity = b :=
        foldlMax_eq ds d.similarity b hab hub' hmem'
      simp only [calculateConfidence, hbest]
  · norm_num [calculateConfidence, hitA, hitB, List.filter, round2, round_eq,
      min_def, max_def]

/-- Witness for C1 at threshold `0.7`, hits `[0.9, 0.3]`, maximum `0.9`. -/
theorem calculateConfidence_spec_witness :
    calculateConfidence (7/10) [hitA, hitB]
      = round2 (min (min (9/10 : ℚ) 1
          + min ((([hitA, hitB].filter (fun h => decide ((7/10 : ℚ) ≤ h.similarity))).length : ℚ)
              * (1/10)) (3/10)) 1)
    ∧ calculateConfidence (7/10) [] = 0
    ∧ calculateConfidence (7/10) [hitA, hitB] = 1 :=
  calculateConfidence_spec (7/10) (9/10) [hitA, hitB] (by simp)
    (by simp [hitA, hitB]) (by norm_num [hitA, hitB])

/-- C2.  The chunk splitting of `_split_into_chunks` does NOT terminate for
every text even when `chunkSize > 0` and `0 ≤ overlap < chunkSize`: on the
ten-character text `"ab ccccccc"` with `chunk_size = 5` and `overlap = 3` the
loop cycles through `start = 1 → -1 → 1 → ...` forever (the window edge is
pulled back to the space at index 2 and the overlap subtraction moves `start`
backwards; Python's negative-index semantics keep the loop alive), so the
fueled model returns `none` for every amount of fuel. -/
theorem splitIntoChunks_nonterminating (fuel : Nat) :
    splitIntoChunks cycleText 5 3 fuel = none := by
  have hloop : splitChunksLoop cycleText 5 3 fuel 0 [] = none := by
    cases fuel with
    | zero => rfl
    | succ n =>
      rw [cycleText_step_zero]
      exact (cycleText_loop_none n).1 _
  simp [splitIntoChunks, hloop]
  decide

/-- C3.  The configuration `chunk_size = 5`, `chunk_overlap = 5` (overlap equal
to the chunk size) is NOT rejected: `DocumentProcessor.__init__` stores it
without any validation, and `_split_into_chunks` then fails to terminate on any
text longer than the chunk size — the fueled model returns `none` on the
seven-character text `"aaaaaaa"` for every amount of fuel. -/
theorem documentProcessorInit_no_validation :
    documentProcessorInit 5 5 = Except.ok (5, 5)
    ∧ ∀ fuel, splitIntoChunks equalOverlapText 5 5 fuel = none := by
  refine ⟨rfl, fun fuel => ?_⟩
  simp [splitIntoChunks, equalOverlapText_loop_none fuel []]
  decide

/-- Counterexample for C4: the normalization applied to the raw distance `-20`
yields `2`, which is not in `[0, 1]` — the claim as stated quantifies over
every rawDistance, including negative ones. -/
theorem normalizeSimilarity_counterexample :
    normalizeSimilarity (-20) = 2 ∧ ¬ normalizeSimilarity (-20) ≤ 1 := by
  norm_num [normalizeSimilarity, max_def]

/-- C4 (amended to non-negative raw distances).  For every `rawDistance ≥ 0`
the normalized similarity equals `max(0, 1 - rawDistance/20)`, lies in
`[0, 1]`, is non-increasing, equals `1` at `0`, and equals `0` for every
`rawDistance ≥ 20`. -/
theorem normalizeSimilarity_spec (d e : ℚ) (hd : 0 ≤ d) :
    normalizeSimilarity d = max 0 (1 - d / 20)
    ∧ 0 ≤ normalizeSimilarity d
    ∧ normalizeSimilarity d ≤ 1
    ∧ (d ≤ e → normalizeSimilarity e ≤ normalizeSimilarity d)
    ∧ normalizeSimilarity 0 = 1
    ∧ (20 ≤ d → normalizeSimilarity d = 0) := by
  refine ⟨rfl, le_max_left _ _, ?_, ?_, ?_, ?_⟩
  · apply max_le (by norm_num)
    have : 0 ≤ d / 20 := by positivity
    linarith
  · intro hde
    apply max_le (le_max_left _ _)
    refine le_trans ?_ (le_max_right _ _)
    have : d / 20 ≤ e / 20 := by linarith
    linarith
  · norm_num [normalizeSimilarity]
  · intro h20
    apply le_antisymm
    · apply max_le le_rfl
      have : 1 ≤ d / 20 := by linarith
      linarith
    · exact le_max_left _ _

/-- Witness for C4 at `d = 5`, `e = 25`. -/
theorem normalizeSimilarity_spec_witness :
    normalizeSimilarity 5 = max 0 (1 - 5 / 20)
    ∧ 0 ≤ normalizeSimilarity 5
    ∧ normalizeSimilarity 5 ≤ 1
    ∧ ((5 : ℚ) ≤ 25 → normalizeSimilarity 25 ≤ normalizeSimilarity 5)
    ∧ normalizeSimilarity 0 = 1
    ∧ ((20 : ℚ) ≤ 5 → normalizeSimilarity 5 = 0) :=
  normalizeSimilarity_spec 5 25 (by norm_num)

/-- C5.  For hits listed best-match-first (descending similarity), the sources
list of `_format_sources` is exactly the hits with similarity at or above the
threshold, in order — hence still descending (also after the per-source
2-decimal rounding) — and every source comes from a hit at or above the
threshold; the context blocks of `_prepare_context` are likewise exactly the
above-threshold hits. -/
theorem formatSources_threshold (threshold : ℚ) (hits : List Hit)
    (hsorted : List.Pairwise (fun a b : Hit => b.similarity ≤ a.similarity) hits) :
    formatSources threshold hits
        = (hits.filter (fun h => decide (threshold ≤ h.similarity))).map mkSourceRef
    ∧ List.Pairwise (fun a b : SourceRef => b.similarity ≤ a.similarity)
        (formatSources threshold hits)
    ∧ (∀ s ∈ formatSources threshold hits,
        ∃ h ∈ hits, threshold ≤ h.similarity ∧ s = mkSourceRef h)
    ∧ contextPartsAux threshold 0 hits
        = ((hits.enum).filter (fun p => decide (threshold ≤ p.2.similarity))).map
            (fun p => mkPart (p.1 + 1) p.2.filename p.2.content) := by
  refine ⟨formatSources_eq threshold hits, ?_, ?_, ?_⟩
  · rw [formatSources_eq]
    exact ((hsorted.filter _).map _ (fun a b hab => round2_mono hab))
  · intro s hsmem
    rw [formatSources_eq] at hsmem
    rcases List.mem_map.mp hsmem with ⟨h, hh, rfl⟩
    rcases List.mem_filter.mp hh with ⟨hmem, hcond⟩
    exact ⟨h, hmem, by simpa using hcond, rfl⟩
  · simpa [List.enum] using contextPartsAux_eq threshold 0 hits

/-- Witness for C5 at threshold `0.7` on the descending hits `[0.9, 0.3]`. -/
theorem formatSources_threshold_witness :
    formatSources (7/10) [hitA, hitB]
        = ([hitA, hitB].filter (fun h => decide ((7/10 : ℚ) ≤ h.similarity))).map mkSourceRef
    ∧ List.Pairwise (fun a b : SourceRef => b.similarity ≤ a.similarity)
        (formatSources (7/10) [hitA, hitB])
    ∧ (∀ s ∈ formatSources (7/10) [hitA, hitB],
        ∃ h ∈ [hitA, hitB], (7/10 : ℚ) ≤ h.similarity ∧ s = mkSourceRef h)
    ∧ contextPartsAux (7/10) 0 [hitA, hitB]
        = (([hitA, hitB].enum).filter (fun p => decide ((7/10 : ℚ) ≤ p.2.similarity))).map
            (fun p => mkPart (p.1 + 1) p.2.filename p.2.content) :=
  formatSources_threshold (7/10) [hitA, hitB]
    (by norm_num [List.pairwise_cons, hitA, hitB])

/-- C6.  When the primary generation call fails and an alternative model is
configured, `_get_llm_response` calls the backend exactly twice — the primary
and then the alternative, both with the same prompt, no further retries — and
when the alternative also fails it returns the fixed degraded message (the
function is total, so no exception crosses it). -/
theorem getLlmResponse_fallback (backend : String → String → Except Unit String)
    (model alt prompt : String)
    (hfail : backend model prompt = Except.error ()) :
    (getLlmResponse backend model (some alt) prompt).2 = [(model, prompt), (alt, prompt)]
    ∧ (∀ r, backend alt prompt = Except.ok r →
        (getLlmResponse backend model (some alt) prompt).1 = r.trim)
    ∧ (backend alt prompt = Except.error () →
        (getLlmResponse backend model (some alt) prompt).1 = degradedMsg) := by
  cases hb : backend alt prompt with
  | ok r =>
    refine ⟨by simp [getLlmResponse, hfail, hb], ?_, ?_⟩
    · intro r2 h2
      cases h2
      simp [getLlmResponse, hfail, hb]
    · intro h
      simp at h
  | error e =>
    refine ⟨by simp [getLlmResponse, hfail, hb], ?_, ?_⟩
    · intro r2 h2
      simp at h2
    · intro _
      simp [getLlmResponse, hfail, hb]

/-- Witness for C6 with an always-failing backend. -/
theorem getLlmResponse_fallback_witness :
    (getLlmResponse failingBackend "model-a" (some "model-b") "soru").2
        = [("model-a", "soru"), ("model-b", "soru")]
    ∧ (getLlmResponse failingBackend "model-a" (some "model-b") "soru").1 = degradedMsg := by
  have h := getLlmResponse_fallback failingBackend "model-a" "model-b" "soru" rfl
  exact ⟨h.1, h.2.2 rfl⟩

/-- C7.  On zero retrieval hits, `query` short-circuits: the answer is the
fixed "no relevant documents" message, the confidence is `0.0`, the sources
are empty, and no backend call is made (the call log is empty; the context and
prompt are never built). -/
theorem ragQuery_empty_hits (backend : String → String → Except Unit String)
    (model : String) (altModel : Option String) (threshold : ℚ) (question : String) :
    ragQuery backend model altModel threshold question []
      = ({ answer := noDocsMsg, sources := [], confidence := 0 }, []) := rfl

/-- Counterexample for C8: on two records with non-empty content,
`add_documents` returns the boolean `True` — numerically `1` in Python — while
the count of records stored is `2`; the function does not return the count. -/
theorem addDocuments_counterexample :
    addDocuments twoDocs = true
    ∧ (storedContents twoDocs).length = 2
    ∧ pyBoolToInt (addDocuments twoDocs) ≠ 2 := by
  refine ⟨by decide, by decide, by decide⟩

/-- C8 (amended).  `add_documents` returns the boolean `True` (not a count)
exactly when some input record has non-empty content, and `False` when the
input yields no non-empty content. -/
theorem addDocuments_true_iff (documents : List PyDoc) :
    addDocuments documents = true ↔ ∃ d ∈ documents, d.content ≠ "" := by
  unfold addDocuments storedContents
  by_cases hnil : documents = []
  · subst hnil
    simp
  · rw [if_neg (by simpa [List.isEmpty_iff] using hnil)]
    by_cases hfil : ((documents.map (·.content)).filter (fun s => !s.isEmpty)) = []
    · rw [if_pos (by simpa [List.isEmpty_iff] using hfil)]
      constructor
      · intro h
        cases h
      · rintro ⟨d, hd, hne⟩
        exfalso
        have hmem : d.content ∈ (documents.map (·.content)).filter (fun s => !s.isEmpty) := by
          refine List.mem_filter.mpr ⟨List.mem_map.mpr ⟨d, hd, rfl⟩, ?_⟩
          exact (bang_isEmpty_iff _).mpr hne
        rw [hfil] at hmem
        cases hmem
    · rw [if_neg (by simpa [List.isEmpty_iff] using hfil)]
      simp only [true_iff]
      rcases List.exists_mem_of_ne_nil _ hfil with ⟨s, hsmem⟩
      rcases List.mem_filter.mp hsmem with ⟨hsmap, hcond⟩
      rcases List.mem_map.mp hsmap with ⟨d, hd, rfl⟩
      exact ⟨d, hd, (bang_isEmpty_iff _).mp hcond⟩

/-- Counterexample for C9: a hit whose content has 201 characters produces a
source record whose preview has `200 + 3 = 203` characters — more than the 200
the claim allows. -/
theorem previewOf_counterexample :
    mkSourceRef bigHit ∈ formatSources (7/10) [bigHit]
    ∧ (mkSourceRef bigHit).preview.length = 203
    ∧ ¬ (mkSourceRef bigHit).preview.length ≤ 200 := by
  refine ⟨?_, by decide, by decide⟩
  norm_num [formatSources, bigHit]

/-- C9 (amended).  Every source record built by `_format_sources` comes from a
hit at or above the threshold; its preview is the content itself when the
content has at most 200 characters, and the first 200 characters followed by
the three-character ellipsis `"..."` otherwise, so the preview is at most 203
characters long. -/
theorem previewOf_spec (hits : List Hit) (threshold : ℚ) (s : SourceRef)
    (hs : s ∈ formatSources threshold hits) :
    ∃ h ∈ hits, threshold ≤ h.similarity ∧ s = mkSourceRef h
      ∧ (h.content.length ≤ 200 → s.preview = h.content)
      ∧ (200 < h.content.length → s.preview = h.content.take 200 ++ "...".data)
      ∧ s.preview.length ≤ 203 := by
  rw [formatSources_eq] at hs
  rcases List.mem_map.mp hs with ⟨h, hh, rfl⟩
  rcases List.mem_filter.mp hh with ⟨hmem, hcond⟩
  have h3 : ("...".data).length = 3 := rfl
  refine ⟨h, hmem, by simpa using hcond, rfl, ?_, ?_, ?_⟩
  · intro hle
    simp [mkSourceRef, previewOf, Nat.not_lt.mpr hle]
  · intro hgt
    simp [mkSourceRef, previewOf, hgt]
  · by_cases hc : 200 < h.content.length
    · simp only [mkSourceRef, previewOf, if_pos hc, List.length_append, List.length_take, h3]
      omega
    · simp only [mkSourceRef, previewOf, if_neg hc]
      omega

/-- Witness for C9 on the truncating hit `bigHit` at threshold `0.7`. -/
theorem previewOf_spec_witness :
    ∃ h ∈ [bigHit], (7/10 : ℚ) ≤ h.similarity ∧ mkSourceRef bigHit = mkSourceRef h
      ∧ (h.content.length ≤ 200 → (mkSourceRef bigHit).preview = h.content)
      ∧ (200 < h.content.length →
          (mkSourceRef bigHit).preview = h.content.take 200 ++ "...".data)
      ∧ (mkSourceRef bigHit).preview.length ≤ 203 :=
  previewOf_spec [bigHit] (7/10) (mkSourceRef bigHit)
    (by norm_num [formatSources, bigHit])

/-- C10.  The numeric label of each surviving context block of
`_prepare_context` is the hit's 1-based position in the full retrieved list
(the enumeration index advances on skipped hits too); with a below-threshold
hit at position 0 followed by a surviving hit at position 1, the only surviving
block is labeled 2, not 1. -/
theorem contextLabels_full_position :
    (∀ (threshold : ℚ) (hits : List Hit),
      contextPartsAux threshold 0 hits
        = ((hits.enum).filter (fun p => decide (threshold ≤ p.2.similarity))).map
            (fun p => mkPart (p.1 + 1) p.2.filename p.2.content))
    ∧ contextPartsAux (7/10) 0 [lowHit, highHit] = [mkPart 2 "high.txt" ['d']]
    ∧ mkPart 2 "high.txt" ['d'] ≠ mkPart 1 "high.txt" ['d'] := by
  refine ⟨?_, ?_, by decide⟩
  · intro t hits
    simpa [List.enum] using contextPartsAux_eq t 0 hits
  · norm_num [contextPartsAux, lowHit, highHit]
